import Mathlib

/-!
# Verification of the DataTool battery-log pipeline

Shallow embedding of the parts of the repository relevant to the frozen
claims:

* `src/toyo_labeling.py` — `ToyoDataLabeler` (cycle computation, pattern
  classification, step definition, C-rate, cutoff extraction);
* `src/data_loaders.py` — `PNELoader.COLUMN_NAMES`, `apply_column_mapping`,
  the unit-conversion post-processing of `load_channel_data`, and
  `BaseDataLoader.merge_channel_data`;
* `src/battery_data_processor.py` — `merge_channels` and the rated-capacity
  selection in `export_toyo_separate_files`;
* `src/utils.py` — `parse_battery_info_from_path`.

Numeric cell values are modelled as rationals (`ℚ`), integer codes as `ℤ`,
Python `None` cells as `Option` values.  Python's `round` is modelled as
exact round-half-to-even on rationals.
-/

namespace DataTool

/-! ## String helpers

`containsSub hay needle` models Python's `needle in hay` substring test.
-/

/-- Boolean test that `n` occurs at the start of `h` (chars). -/
def isPrefixB : List Char → List Char → Bool
  | [], _ => true
  | _ :: _, [] => false
  | a :: as, b :: bs => a = b && isPrefixB as bs

/-- Boolean test that `n` occurs somewhere inside `h` (chars). -/
def isInfixB (n : List Char) : List Char → Bool
  | [] => isPrefixB n []
  | c :: cs => isPrefixB n (c :: cs) || isInfixB n cs

/-- Python's `needle in hay` on strings. -/
def containsSub (hay needle : String) : Bool :=
  isInfixB needle.toList hay.toList

/-! ## Python `round`

Python 3 `round(x, d)` rounds half to even.  We model it exactly on `ℚ`. -/

/-- Round a rational to the nearest integer, halves to even. -/
def roundHalfEven (q : ℚ) : ℤ :=
  let f : ℤ := ⌊q⌋
  let frac : ℚ := q - (f : ℚ)
  if frac < 1/2 then f
  else if frac > 1/2 then f + 1
  else if f % 2 = 0 then f else f + 1

/-- Python `round(q, d)`. -/
def pyRound (q : ℚ) (d : ℕ) : ℚ :=
  (roundHalfEven (q * (10 : ℚ) ^ d) : ℚ) / (10 : ℚ) ^ d

/-! ## Data model for Toyo (Family B) tables

A `CAPACITY.LOG` row, restricted to the fields that
`ToyoDataLabeler` reads (`Condition`, `Mode`, `TotlCycle`, `Cap[mAh]`,
`Finish`). -/

/-- One summary-log (`CAPACITY.LOG`) row. -/
structure CapRow where
  Condition : ℤ
  Mode : ℤ
  TotlCycle : ℤ
  CapMah : ℚ
  Finish : String
deriving DecidableEq

/-- Default row used for out-of-range `getD` reads. -/
def capDefault : CapRow := ⟨0, 0, 0, 0, ""⟩

/-- One raw-sample row, restricted to the fields the labeler reads. -/
structure RawRow where
  TotlCycle : ℤ
  Condition : ℤ
  Mode : ℤ
  Voltage : ℚ
  Current : ℚ
deriving DecidableEq

/-! ## `ToyoDataLabeler._calculate_cycles`

```python
cycles = []
current_cycle = 0
prev_condition = None
for idx, row in df.iterrows():
    if prev_condition is None or (row['Condition'] == 1 and prev_condition != 1):
        current_cycle += 1
    cycles.append(current_cycle)
    prev_condition = row['Condition']
```
-/

/-- Loop body of `_calculate_cycles`: state is `(prev_condition, current_cycle)`.
The Python loop also tracks `prev_mode`, but never reads it, so it is not
carried here. -/
def calculateCyclesAux : Option ℤ → ℤ → List CapRow → List ℤ
  | _, _, [] => []
  | prevCond, cur, r :: rs =>
    let cur' := if prevCond = Option.none ∨ (r.Condition = 1 ∧ prevCond ≠ some 1)
      then cur + 1 else cur
    cur' :: calculateCyclesAux (some r.Condition) cur' rs

/-- `ToyoDataLabeler._calculate_cycles`. -/
def calculateCycles (df : List CapRow) : List ℤ :=
  calculateCyclesAux Option.none 0 df

/-! ## `ToyoDataLabeler._classify_patterns` and `_define_steps` -/

/-- `_classify_patterns` for one row: `'보증'` (WARRANTY) when the computed
cycle is 1 or a positive multiple of 100, `'수명'` (LIFE) otherwise. -/
def classifyPattern (cycle : ℤ) : String :=
  if cycle = 1 ∨ (cycle > 0 ∧ cycle % 100 = 0) then "보증" else "수명"

/-- `_define_steps` for one row, branching on pattern, `Condition`, `Mode`. -/
def defineStep (pattern : String) (condition mode : ℤ) : String :=
  if pattern = "보증" then
    if condition = 1 then "충전" else "방전"
  else if pattern = "수명" then
    if condition = 1 then
      if mode ≤ 2 then "step1 CC충전"
      else if mode = 3 then "step2 CC충전"
      else if mode = 4 then "step3 CCCV충전"
      else if mode ≥ 5 then "step4 CCCV충전"
      else "충전"
    else
      if mode ≤ 5 then "step1 방전" else "step2 방전"
  else ""

/-! ## Raw-table cross-referencing

`raw_df` rows are matched on the composite key
`(TotlCycle, Condition, Mode)` of the summary row. -/

/-- The boolean mask `(raw.TotlCycle == r.TotlCycle) & (raw.Condition ==
r.Condition) & (raw.Mode == r.Mode)` applied as a filter. -/
def rawKeyFilter (r : CapRow) (raw : List RawRow) : List RawRow :=
  raw.filter (fun w => w.TotlCycle = r.TotlCycle ∧ w.Condition = r.Condition ∧ w.Mode = r.Mode)

/-- `_calculate_crate` for one summary row (raw table available). -/
def calculateCrateRow (ratedCapacity : ℚ) (r : CapRow) (pattern : String)
    (raw : List RawRow) : ℚ :=
  let ms := rawKeyFilter r raw
  if ms ≠ [] then
    let nz := (ms.map RawRow.Current).filter (fun c => c ≠ 0)
    if nz.length > 0 then
      let avg := |nz.sum / (nz.length : ℚ)|
      pyRound (avg / ratedCapacity) 3
    else 0
  else
    if r.CapMah > 0 then
      if pattern = "보증" then 1/5
      else if r.CapMah < 300 then 1
      else if r.CapMah < 600 then 1/2
      else 3/10
    else 0

/-- `_estimate_crate_from_capacity` for one row (no raw table). -/
def estimateCrateRow (pattern : String) (cap : ℚ) (step : String) : ℚ :=
  if pattern = "보증" then 1/5
  else if pattern = "수명" then
    if containsSub step "step1" then 1/2
    else if containsSub step "step2" then
      if containsSub step "충전" then 3/10 else 1/2
    else if containsSub step "step3" ∨ containsSub step "step4" then 1/2
    else
      if cap > 1500 then 7/10
      else if cap > 1000 then 1/2
      else if cap > 500 then 3/10
      else 1/5
  else 0

/-- `_extract_cutoff_voltage` for one row: only `Finish == 'Vol'` rows get a
value; last matching raw `Voltage` rounded to 4 decimals, else the
4.5 / 2.75 defaults keyed on whether the step label contains `'충전'`. -/
def extractCutoffVoltageRow (r : CapRow) (step : String) (raw : List RawRow) : Option ℚ :=
  if r.Finish = "Vol" then
    match (rawKeyFilter r raw).getLast? with
    | some w => some (pyRound w.Voltage 4)
    | Option.none =>
      if containsSub step "충전" then some (9/2) else some (11/4)
  else Option.none

/-- `_extract_cutoff_current` for one row: only `Finish == 'Cur'` rows get a
value; absolute last matching raw `Current` rounded to 1 decimal, else 87.0. -/
def extractCutoffCurrentRow (r : CapRow) (raw : List RawRow) : Option ℚ :=
  if r.Finish = "Cur" then
    match (rawKeyFilter r raw).getLast? with
    | some w => some (pyRound |w.Current| 1)
    | Option.none => some 87
  else Option.none

/-! ## `ToyoDataLabeler.label_capacity_log`

The Python method adds columns `계산cycle`, `패턴`, `스텝`, `C-rate`,
`Cutoff-Voltage`, `Cutoff-Current` to a copy of the summary table.  Apart
from `_calculate_cycles` (a sequential scan, embedded above), every column
builder reads only the current row (plus the raw table), so the labeled
table is the row-wise map below over the summary rows paired with their
computed cycles. -/

/-- A labeled summary row: the source row plus the added label columns. -/
structure LRow where
  base : CapRow
  cycle : ℤ
  pattern : String
  step : String
  crate : ℚ
  cutoffV : Option ℚ
  cutoffC : Option ℚ
deriving DecidableEq

/-- Default labeled row used for out-of-range `getD` reads. -/
def lrowDefault : LRow := ⟨capDefault, 0, "", "", 0, Option.none, Option.none⟩

/-- Labels one summary row given its computed cycle and the optional raw
table, exactly as `label_capacity_log` fills that row's added columns. -/
def labelRow (ratedCapacity : ℚ) (r : CapRow) (cyc : ℤ)
    (raw : Option (List RawRow)) : LRow :=
  let pat := classifyPattern cyc
  let st := defineStep pat r.Condition r.Mode
  match raw with
  | some rd =>
    { base := r, cycle := cyc, pattern := pat, step := st
      crate := calculateCrateRow ratedCapacity r pat rd
      cutoffV := extractCutoffVoltageRow r st rd
      cutoffC := extractCutoffCurrentRow r rd }
  | Option.none =>
    { base := r, cycle := cyc, pattern := pat, step := st
      crate := estimateCrateRow pat r.CapMah st
      cutoffV := Option.none
      cutoffC := Option.none }

/-- `ToyoDataLabeler.label_capacity_log`. -/
def labelCapacityLog (ratedCapacity : ℚ) (df : List CapRow)
    (raw : Option (List RawRow)) : List LRow :=
  (df.zip (calculateCycles df)).map (fun p => labelRow ratedCapacity p.1 p.2 raw)

/-! ## `PNELoader` (Family A) column reconciliation

`PNELoader.COLUMN_NAMES` from `src/data_loaders.py` (47 names, indices 0–46),
and `apply_column_mapping`, which — given the observed column count — applies
the schema names, truncates them, or extends them with `Extra_Col_N`. -/

/-- `PNELoader.COLUMN_NAMES`. -/
def COLUMN_NAMES : List String :=
  ["Index", "Default", "Step_Type", "ChgDchg", "Current_App_Class",
   "CCCV", "End_State", "Step_Count", "Voltage_uV", "Current_uA",
   "Chg_Capacity_uAh", "Dchg_Capacity_uAh", "Chg_Power_mW", "Dchg_Power_mW",
   "Chg_WattHour_Wh", "Dchg_WattHour_Wh", "Repeat_Pattern_Count",
   "Step_Time_cs", "Tot_Time_day", "Tot_Time_cs", "Impedance",
   "Temperature_1", "Temperature_2", "Temperature_3", "Temperature_4",
   "Unknown_25", "Repeat_Count", "Total_Cycle", "Current_Cycle",
   "Avg_Voltage_uV", "Avg_Current_uA", "Col_31", "CV_Section",
   "Date_YYYYMMDD", "Time_HHmmss", "Col_35", "Col_36", "Col_37",
   "Step_Info", "CC_Charge", "CV_Section_2", "Discharge", "Col_42",
   "Avg_Voltage_Section", "Cumulative_Step", "Voltage_Max_uV",
   "Voltage_Min_uV"]

/-- The synthetic name `f'Extra_Col_{i+1}'` for the `i`-th extra column. -/
def extraColName (i : ℕ) : String := "Extra_Col_" ++ toString (i + 1)

/-- `PNELoader.apply_column_mapping`, as a function from the observed column
count to the list of column names assigned to the frame. -/
def applyColumnMapping (numCols : ℕ) : List String :=
  if numCols = COLUMN_NAMES.length then COLUMN_NAMES
  else if numCols < COLUMN_NAMES.length then COLUMN_NAMES.take numCols
  else COLUMN_NAMES ++ (List.range (numCols - COLUMN_NAMES.length)).map extraColName

/-! ## `PNELoader.load_channel_data` unit-conversion post-processing

```python
if 'voltage_uv' in combined_df.columns:
    combined_df['voltage_v'] = combined_df['voltage_uv'] / 1e6
if 'current_ua' in combined_df.columns:
    combined_df['current_ma'] = combined_df['current_ua'] / 1e3
if 'chg_capacity_uah' in combined_df.columns:
    combined_df['chg_capacity_mah'] = combined_df['chg_capacity_uah'] / 1e3
if 'dchg_capacity_uah' in combined_df.columns:
    combined_df['dchg_capacity_mah'] = combined_df['dchg_capacity_uah'] / 1e3
```

modelled at the level of the frame's column-name list (the guards and the
added columns; the claim under check concerns column presence only). -/

/-- Column-level effect of the micro→standard unit conversion block. -/
def addDerivedUnitColumns (cols : List String) : List String :=
  let c1 := if "voltage_uv" ∈ cols then cols ++ ["voltage_v"] else cols
  let c2 := if "current_ua" ∈ c1 then c1 ++ ["current_ma"] else c1
  let c3 := if "chg_capacity_uah" ∈ c2 then c2 ++ ["chg_capacity_mah"] else c2
  if "dchg_capacity_uah" ∈ c3 then c3 ++ ["dchg_capacity_mah"] else c3

/-- Column names of a loaded single-segment PNE channel with `numCols`
observed columns: `apply_column_mapping` followed by the unit-conversion
post-processing of `load_channel_data`. -/
def loadChannelColumns (numCols : ℕ) : List String :=
  addDerivedUnitColumns (applyColumnMapping numCols)

/-! ## `BaseDataLoader.merge_channel_data` and
`BatteryDataProcessor.merge_channels`

`self.channel_data` is a dict channel-name → table, in insertion order;
modelled as an association list.  A table is a list of rows of an abstract
row type `α`; stamping the `channel` column pairs each row with its channel
name.  The `raise ValueError` on an empty collection is modelled with
`Except`. -/

/-- `BaseDataLoader.merge_channel_data`: error on unloaded state, otherwise
every channel's rows stamped with the channel name, concatenated in held
order. -/
def mergeChannelData {α : Type} (channelData : List (String × List α)) :
    Except String (List (α × String)) :=
  if channelData.isEmpty then
    Except.error "No channel data loaded. Call load_all_channels() first."
  else
    Except.ok ((channelData.map (fun p => p.2.map (fun r => (r, p.1)))).flatten)

/-- The processor state relevant to `merge_channels`: the held per-channel
tables and the cached merged table. -/
structure ProcState (α : Type) where
  channelData : List (String × List α)
  mergedData : Option (List (α × String))

/-- `BatteryDataProcessor.merge_channels`: guard on the held channel
collection, delegate to the loader's `merge_channel_data`, cache and return
the merged table.  On error no new state is produced (the Python `raise`
leaves `self` untouched). -/
def mergeChannels {α : Type} (s : ProcState α) :
    Except String (ProcState α × List (α × String)) :=
  if s.channelData.isEmpty then
    Except.error "No channel data loaded. Call load_data() first."
  else
    match mergeChannelData s.channelData with
    | Except.ok m => Except.ok ({ s with mergedData := some m }, m)
    | Except.error e => Except.error e

/-! ## `parse_battery_info_from_path` and the export rated-capacity default

`src/utils.py` builds a dict that always contains the keys
`manufacturer`, `model`, `capacity_mah`, `test_condition`, `full_name`
(value `None` when a component is absent).  Python dict values are modelled
by `PyVal`; the dict by an association list in insertion order. -/

/-- A Python dict value: `None`, an int, or a string. -/
inductive PyVal where
  | none : PyVal
  | int : ℤ → PyVal
  | str : String → PyVal
deriving DecidableEq

/-- Numeric value of a digit run (most significant first). -/
def digitsToNat (ds : List Char) : ℕ :=
  ds.foldl (fun acc c => acc * 10 + (c.toNat - '0'.toNat)) 0

/-- Case-insensitive check that the char list starts with `mAh`
(for `re.search(r'(\d+)mAh', ..., re.IGNORECASE)`). -/
def startsWithMahCI : List Char → Bool
  | m :: a :: h :: _ => m.toLower = 'm' && a.toLower = 'a' && h.toLower = 'h'
  | _ => false

/-- Case-sensitive check that the char list starts with `mAh`
(for `re.search(r'\d+mAh', last_part)`, no IGNORECASE). -/
def startsWithMahCS : List Char → Bool
  | m :: a :: h :: _ => m = 'm' && a = 'A' && h = 'h'
  | _ => false

/-- Leftmost match of `(\d+)mAh` (case-insensitive `mAh`): scans start
positions left to right; a greedy digit run must be followed by `mAh`
(shorter backtracked runs are followed by a digit, so they can never
match, as in the Python regex). Returns the captured digits' value. -/
def findCapacity : List Char → Option ℕ
  | [] => Option.none
  | c :: cs =>
    if c.isDigit then
      let ds := (c :: cs).takeWhile Char.isDigit
      let rest := (c :: cs).dropWhile Char.isDigit
      if startsWithMahCI rest then some (digitsToNat ds)
      else findCapacity cs
    else findCapacity cs

/-- Leftmost match test for `\d+mAh`, case-sensitive. -/
def hasCapacityTokenCS : List Char → Bool
  | [] => false
  | c :: cs =>
    if c.isDigit then
      let rest := (c :: cs).dropWhile Char.isDigit
      if startsWithMahCS rest then true
      else hasCapacityTokenCS cs
    else hasCapacityTokenCS cs

/-- `parse_battery_info_from_path`, applied to the basename of the data
path.  Produces the info dict in insertion order; every key is always
present, absent components carry `PyVal.none`. -/
def parseBatteryInfo (baseName : String) : List (String × PyVal) :=
  let capacity : PyVal :=
    match findCapacity baseName.toList with
    | some n => PyVal.int (n : ℤ)
    | Option.none => PyVal.none
  let parts := baseName.splitOn "_"
  let manufacturer : PyVal :=
    if parts.length ≥ 2 then PyVal.str (parts.getD 0 "") else PyVal.none
  let modelParts :=
    if parts.length ≥ 2 then
      (parts.drop 1).takeWhile (fun p => ¬ containsSub p "mAh")
    else []
  let model : PyVal :=
    if modelParts ≠ [] then PyVal.str (String.intercalate "_" modelParts)
    else PyVal.none
  let testCondition : PyVal :=
    if parts.length > 0 ∧ ¬ hasCapacityTokenCS ((parts.getLast?).getD "").toList
    then PyVal.str ((parts.getLast?).getD "")
    else PyVal.none
  [("manufacturer", manufacturer), ("model", model),
   ("capacity_mah", capacity), ("test_condition", testCondition),
   ("full_name", PyVal.str baseName)]

/-- Python `d.get(k, default)` on the association-list dict model. -/
def dictGet (d : List (String × PyVal)) (k : String) (deflt : PyVal) : PyVal :=
  match d.find? (fun p => p.1 = k) with
  | some p => p.2
  | Option.none => deflt

/-- The rated-capacity expression of
`BatteryDataProcessor.export_toyo_separate_files`:
`self.battery_info.get('capacity_mah', 1730) if self.battery_info else 1730`.
The value passed to `ToyoDataLabeler(...)`. -/
def exportRatedCapacity (batteryInfo : List (String × PyVal)) : PyVal :=
  if batteryInfo = [] then PyVal.int 1730
  else dictGet batteryInfo "capacity_mah" (PyVal.int 1730)

/-! # Theorems -/

/-! ## Helper lemmas about `_calculate_cycles` -/

/-- The cycle list has one entry per summary row. -/
theorem calcAux_length (p : Option ℤ) (c : ℤ) (df : List CapRow) :
    (calculateCyclesAux p c df).length = df.length := by
  induction df generalizing p c with
  | nil => rfl
  | cons r rs ih => simp [calculateCyclesAux, ih]

/-- Every entry produced by the loop is at least the incoming counter. -/
theorem calcAux_mem_ge (df : List CapRow) :
    ∀ (p : Option ℤ) (c x : ℤ), x ∈ calculateCyclesAux p c df → c ≤ x := by
  induction df with
  | nil =>
    intro p c x hx
    simp [calculateCyclesAux] at hx
  | cons r rs ih =>
    intro p c x hx
    simp only [calculateCyclesAux, List.mem_cons] at hx
    rcases hx with hx | hx
    · subst hx
      split <;> omega
    · have h1 := ih (some r.Condition) _ x hx
      have h2 : c ≤ (if p = Option.none ∨ (r.Condition = 1 ∧ p ≠ some 1) then c + 1 else c) := by
        split <;> omega
      omega

/-- Adjacent entries of the cycle list: the successor entry equals the
previous one plus 1 exactly when the row's `Condition` is 1 and the
previous row's was not. -/
theorem calcAux_getD_succ (df : List CapRow) :
    ∀ (p : Option ℤ) (c : ℤ) (i : ℕ), i + 1 < df.length →
      (calculateCyclesAux p c df).getD (i + 1) 0 =
        (calculateCyclesAux p c df).getD i 0 +
        (if (df.getD (i + 1) capDefault).Condition = 1 ∧
            (df.getD i capDefault).Condition ≠ 1 then 1 else 0) := by
  induction df with
  | nil =>
    intro p c i h
    simp at h
  | cons r rs ih =>
    intro p c i h
    cases rs with
    | nil => simp at h
    | cons s rs' =>
      cases i with
      | zero =>
        simp only [calculateCyclesAux, List.getD_cons_succ, List.getD_cons_zero,
          Option.some.injEq, reduceCtorEq, false_or, ne_eq]
        by_cases hc : s.Condition = 1 ∧ ¬r.Condition = 1
        · rw [if_pos hc, if_pos hc]
        · rw [if_neg hc, if_neg hc]
          exact (add_zero _).symm
      | succ j =>
        have hlen : j + 1 < (s :: rs').length := by
          simpa using h
        simp only [calculateCyclesAux, List.getD_cons_succ]
        exact ih (some r.Condition) _ j hlen

/-- The first row always gets cycle number 1. -/
theorem calcCycles_getD_zero (df : List CapRow) (h : 0 < df.length) :
    (calculateCycles df).getD 0 0 = 1 := by
  cases df with
  | nil => simp at h
  | cons r rs => simp [calculateCycles, calculateCyclesAux]

/-- Every computed cycle number is at least 1. -/
theorem calcCycles_one_le (df : List CapRow) (x : ℤ)
    (hx : x ∈ calculateCycles df) : 1 ≤ x := by
  cases df with
  | nil => simp [calculateCycles, calculateCyclesAux] at hx
  | cons r rs =>
    simp only [calculateCycles, calculateCyclesAux, List.mem_cons, zero_add,
      reduceCtorEq, if_pos, true_or, eq_self_iff_true, or_true] at hx
    have : x = 1 ∨ x ∈ calculateCyclesAux (some r.Condition) 1 rs := by
      simpa using hx
    rcases this with h1 | h2
    · omega
    · exact calcAux_mem_ge rs (some r.Condition) 1 x h2

/-! ## C1 — cycle counter monotone, +1 exactly at boundaries -/

/-- Claim C1: for every Family B summary table, the `computed_cycle` sequence is
non-decreasing row to row, and it changes by exactly 1 exactly at detected
boundaries — the first row, and any row whose `Condition` is 1 while the
previous row's `Condition` was not 1 — and is unchanged at all other rows
(the value before the first row being the counter's start, 0). -/
theorem cycle_counter_monotone_boundary (df : List CapRow) (i : ℕ)
    (hi : i < df.length) :
    (if i = 0 then 0 else (calculateCycles df).getD (i - 1) 0) ≤
        (calculateCycles df).getD i 0 ∧
    (calculateCycles df).getD i 0 =
      (if i = 0 then 0 else (calculateCycles df).getD (i - 1) 0) +
      (if i = 0 ∨ ((df.getD i capDefault).Condition = 1 ∧
          (df.getD (i - 1) capDefault).Condition ≠ 1) then 1 else 0) := by
  cases i with
  | zero =>
    have h0 := calcCycles_getD_zero df hi
    constructor
    · rw [if_pos rfl, h0]
      omega
    · rw [h0, if_pos rfl, if_pos (Or.inl rfl)]
      omega
  | succ j =>
    have hstep : (calculateCycles df).getD (j + 1) 0 =
        (calculateCycles df).getD j 0 +
        (if (df.getD (j + 1) capDefault).Condition = 1 ∧
            (df.getD j capDefault).Condition ≠ 1 then 1 else 0) :=
      calcAux_getD_succ df Option.none 0 j hi
    have hne : ¬(j + 1 = 0) := Nat.succ_ne_zero j
    have hsub : j + 1 - 1 = j := Nat.succ_sub_one j
    rw [hsub, if_neg hne, hstep]
    constructor
    · split <;> omega
    · by_cases hx : (df.getD (j + 1) capDefault).Condition = 1 ∧
          (df.getD j capDefault).Condition ≠ 1
      · rw [if_pos hx, if_pos (Or.inr hx)]
      · rw [if_neg hx, if_neg (not_or.mpr ⟨hne, hx⟩)]

/-- Witness for C1 at the sample table's first two rows. -/
def dfC2 : List CapRow :=
  [⟨1, 1, 1, 889, "Cur"⟩, ⟨2, 1, 1, 1725, "Vol"⟩, ⟨1, 2, 2, 502, "Vol"⟩,
   ⟨1, 3, 3, 219, "Vol"⟩, ⟨1, 4, 4, 469, "Cur"⟩, ⟨1, 5, 5, 502, "Cur"⟩,
   ⟨2, 5, 6, 1179, "Vol"⟩, ⟨2, 6, 7, 447, "Vol"⟩]

theorem cycle_counter_monotone_boundary_witness :
    ((if 2 = 0 then 0 else (calculateCycles dfC2).getD (2 - 1) 0) ≤
        (calculateCycles dfC2).getD 2 0 ∧
    (calculateCycles dfC2).getD 2 0 =
      (if 2 = 0 then 0 else (calculateCycles dfC2).getD (2 - 1) 0) +
      (if 2 = 0 ∨ ((dfC2.getD 2 capDefault).Condition = 1 ∧
          (dfC2.getD (2 - 1) capDefault).Condition ≠ 1) then 1 else 0)) :=
  cycle_counter_monotone_boundary dfC2 2 (by decide)

/-! ## C2 — the example scenario's expected cycle sequence -/

/-- Claim C2 counterexample: on `Condition` sequence `[1,2,1,1,1,1,2,2]` (the
sample table's first eight rows) the code does **not** produce
`[1,1,2,3,4,5,5,5]`. -/
theorem c2_scenario_counterexample :
    calculateCycles dfC2 ≠ [1, 1, 2, 3, 4, 5, 5, 5] := by decide

/-- Claim C2 amended: on `Condition` sequence `[1,2,1,1,1,1,2,2]` with no prior
state, cycle computation assigns `[1,1,2,2,2,2,2,2]` — the counter rises
only at the transition into `Condition` 1, not at every `Condition` 1 row. -/
theorem c2_scenario_amended :
    calculateCycles dfC2 = [1, 1, 2, 2, 2, 2, 2, 2] := by decide

/-! ## Helper lemmas about `label_capacity_log` rows -/

/-- The labeled row keeps its source row. -/
theorem labelRow_base (rc : ℚ) (r : CapRow) (cyc : ℤ) (raw : Option (List RawRow)) :
    (labelRow rc r cyc raw).base = r := by
  cases raw <;> rfl

/-- The labeled row carries its computed cycle. -/
theorem labelRow_cycle (rc : ℚ) (r : CapRow) (cyc : ℤ) (raw : Option (List RawRow)) :
    (labelRow rc r cyc raw).cycle = cyc := by
  cases raw <;> rfl

/-- The labeled row's pattern column is `_classify_patterns` of its cycle. -/
theorem labelRow_pattern (rc : ℚ) (r : CapRow) (cyc : ℤ) (raw : Option (List RawRow)) :
    (labelRow rc r cyc raw).pattern = classifyPattern cyc := by
  cases raw <;> rfl

/-- Destructs membership in a labeled table into a source row and its
computed cycle. -/
theorem mem_labelCapacityLog (rc : ℚ) (df : List CapRow)
    (raw : Option (List RawRow)) (row : LRow)
    (h : row ∈ labelCapacityLog rc df raw) :
    ∃ r cyc, (r, cyc) ∈ df.zip (calculateCycles df) ∧ row = labelRow rc r cyc raw := by
  obtain ⟨⟨r, cyc⟩, hmem, hrow⟩ := List.mem_map.mp h
  exact ⟨r, cyc, hmem, hrow.symm⟩

/-! ## C3 — pattern totality -/

/-- Claim C3: every labeled summary row's pattern is WARRANTY (`보증`) or LIFE
(`수명`), and it is WARRANTY iff the computed cycle equals 1 or is an exact
multiple of 100. -/
theorem pattern_totality (rc : ℚ) (df : List CapRow)
    (raw : Option (List RawRow)) (row : LRow)
    (h : row ∈ labelCapacityLog rc df raw) :
    (row.pattern = "보증" ∨ row.pattern = "수명") ∧
    (row.pattern = "보증" ↔ (row.cycle = 1 ∨ row.cycle % 100 = 0)) := by
  obtain ⟨r, cyc, hmem, hrow⟩ := mem_labelCapacityLog rc df raw row h
  have hone : 1 ≤ cyc := calcCycles_one_le df cyc (List.of_mem_zip hmem).2
  subst hrow
  rw [labelRow_pattern, labelRow_cycle]
  unfold classifyPattern
  by_cases hc : cyc = 1 ∨ (cyc > 0 ∧ cyc % 100 = 0)
  · rw [if_pos hc]
    refine ⟨Or.inl rfl, ⟨fun _ => ?_, fun _ => rfl⟩⟩
    rcases hc with h1 | ⟨_, h2⟩
    · exact Or.inl h1
    · exact Or.inr h2
  · rw [if_neg hc]
    refine ⟨Or.inr rfl, ⟨fun hbad => absurd hbad (by decide), fun hor => ?_⟩⟩
    exfalso
    apply hc
    rcases hor with h1 | h2
    · exact Or.inl h1
    · exact Or.inr ⟨by omega, h2⟩

/-- A one-row summary table for witnessing the pointwise claims. -/
def dfW : List CapRow := [⟨1, 1, 1, 1000, "Cur"⟩]

/-- The single labeled row of `dfW` without a raw table. -/
def rowW : LRow := (labelCapacityLog 1730 dfW Option.none).getD 0 lrowDefault

/-- The single labeled row of `dfW` with an empty raw table. -/
def rowW2 : LRow := (labelCapacityLog 1730 dfW (some [])).getD 0 lrowDefault

theorem pattern_totality_witness :
    (rowW.pattern = "보증" ∨ rowW.pattern = "수명") ∧
    (rowW.pattern = "보증" ↔ (rowW.cycle = 1 ∨ rowW.cycle % 100 = 0)) :=
  pattern_totality 1730 dfW Option.none rowW (List.mem_cons_self _ _)

/-! ## C4 — cutoff exclusivity by `Finish` -/

/-- Claim C4: a labeled summary row has a `Cutoff-Voltage` value only if its
`Finish` is `"Vol"` and a `Cutoff-Current` value only if its `Finish` is
`"Cur"`; a row not matching the respective `Finish` gets `None` for that
field (never zero). -/
theorem cutoff_exclusivity (rc : ℚ) (df : List CapRow)
    (raw : Option (List RawRow)) (row : LRow)
    (h : row ∈ labelCapacityLog rc df raw) :
    (row.cutoffV.isSome = true → row.base.Finish = "Vol") ∧
    (row.base.Finish ≠ "Vol" → row.cutoffV = Option.none) ∧
    (row.cutoffC.isSome = true → row.base.Finish = "Cur") ∧
    (row.base.Finish ≠ "Cur" → row.cutoffC = Option.none) := by
  obtain ⟨r, cyc, hmem, hrow⟩ := mem_labelCapacityLog rc df raw row h
  subst hrow
  rw [labelRow_base]
  cases raw with
  | none =>
    exact ⟨fun hs => absurd hs (by simp [labelRow]),
           fun _ => rfl,
           fun hs => absurd hs (by simp [labelRow]),
           fun _ => rfl⟩
  | some rd =>
    have hv : (labelRow rc r cyc (some rd)).cutoffV =
        extractCutoffVoltageRow r
          (defineStep (classifyPattern cyc) r.Condition r.Mode) rd := rfl
    have hc : (labelRow rc r cyc (some rd)).cutoffC =
        extractCutoffCurrentRow r rd := rfl
    refine ⟨?_, ?_, ?_, ?_⟩
    · intro hs
      by_contra hne
      rw [hv] at hs
      unfold extractCutoffVoltageRow at hs
      rw [if_neg hne] at hs
      simp at hs
    · intro hne
      rw [hv]
      unfold extractCutoffVoltageRow
      rw [if_neg hne]
    · intro hs
      by_contra hne
      rw [hc] at hs
      unfold extractCutoffCurrentRow at hs
      rw [if_neg hne] at hs
      simp at hs
    · intro hne
      rw [hc]
      unfold extractCutoffCurrentRow
      rw [if_neg hne]

theorem cutoff_exclusivity_witness :
    rowW2.base.Finish ≠ "Vol" ∧ rowW2.cutoffV = Option.none :=
  ⟨by decide,
   (cutoff_exclusivity 1730 dfW (some []) rowW2 (List.mem_cons_self _ _)).2.1
     (by decide)⟩

/-! ## C10 — cutoffs when no raw table is supplied; when defaults apply -/

/-- Claim C10: with no raw table supplied, every labeled row's cutoff fields are
`None` (even for `Finish` `"Vol"`/`"Cur"` rows); the fallback cutoff
defaults (4.5 / 2.75 for voltage keyed on a charge step, 87.0 for current)
are produced exactly when a raw table is supplied but holds no row matching
the summary row's `(TotlCycle, Condition, Mode)` key. -/
theorem cutoff_defaults_only_with_raw (rc : ℚ) (df : List CapRow)
    (rowN rowS : LRow) (rd : List RawRow)
    (h1 : rowN ∈ labelCapacityLog rc df Option.none)
    (h2 : rowS ∈ labelCapacityLog rc df (some rd))
    (hnm : rawKeyFilter rowS.base rd = []) :
    (rowN.cutoffV = Option.none ∧ rowN.cutoffC = Option.none) ∧
    (rowS.base.Finish = "Vol" →
      rowS.cutoffV = some (if containsSub rowS.step "충전" then (9 : ℚ)/2 else (11 : ℚ)/4)) ∧
    (rowS.base.Finish = "Cur" → rowS.cutoffC = some 87) := by
  obtain ⟨r, cyc, hmem, hrow⟩ := mem_labelCapacityLog rc df Option.none rowN h1
  obtain ⟨r2, cyc2, hmem2, hrow2⟩ := mem_labelCapacityLog rc df (some rd) rowS h2
  refine ⟨?_, ?_, ?_⟩
  · subst hrow
    exact ⟨rfl, rfl⟩
  · intro hf
    subst hrow2
    rw [labelRow_base] at hf hnm
    have hstep : (labelRow rc r2 cyc2 (some rd)).step =
        defineStep (classifyPattern cyc2) r2.Condition r2.Mode := rfl
    have hv : (labelRow rc r2 cyc2 (some rd)).cutoffV =
        extractCutoffVoltageRow r2
          (defineStep (classifyPattern cyc2) r2.Condition r2.Mode) rd := rfl
    rw [hv, hstep]
    unfold extractCutoffVoltageRow
    rw [if_pos hf, hnm]
    simp only [List.getLast?_nil]
    split <;> rfl
  · intro hf
    subst hrow2
    rw [labelRow_base] at hf hnm
    have hcu : (labelRow rc r2 cyc2 (some rd)).cutoffC =
        extractCutoffCurrentRow r2 rd := rfl
    rw [hcu]
    unfold extractCutoffCurrentRow
    rw [if_pos hf, hnm]
    rfl

theorem cutoff_defaults_only_with_raw_witness :
    (rowW.cutoffV = Option.none ∧ rowW.cutoffC = Option.none) ∧
    rowW2.cutoffC = some 87 :=
  have h := cutoff_defaults_only_with_raw 1730 dfW rowW rowW2 []
    (List.mem_cons_self _ _) (List.mem_cons_self _ _) rfl
  ⟨h.1, h.2.2 (by decide)⟩

/-! ## C5 — Family A schema truncation / extension -/

/-- None of the 47 canonical schema names is a synthetic extra-column name. -/
theorem column_names_no_extra :
    ∀ s ∈ COLUMN_NAMES, isPrefixB "Extra_Col_".toList s.toList = false := by
  decide

/-- The canonical schema has 47 names. -/
theorem column_names_length : COLUMN_NAMES.length = 47 := by decide

/-- Claim C5: with `N < 47` observed columns, `apply_column_mapping` yields exactly
`N` columns named as the first `N` canonical schema names, none of them a
synthetic `Extra_Col_*` name; with `N > 47`, all 47 schema names are applied
followed by the synthetic `Extra_Col_{i+1}` names for the remainder. -/
theorem schema_truncation (n : ℕ) :
    (n < 47 →
      (applyColumnMapping n).length = n ∧
      (∀ i, i < n → (applyColumnMapping n).getD i "" = COLUMN_NAMES.getD i "") ∧
      (∀ s ∈ applyColumnMapping n, isPrefixB "Extra_Col_".toList s.toList = false)) ∧
    (47 < n →
      (applyColumnMapping n).length = n ∧
      (∀ i, i < 47 → (applyColumnMapping n).getD i "" = COLUMN_NAMES.getD i "") ∧
      (∀ i, 47 ≤ i → i < n →
        (applyColumnMapping n).getD i "" = extraColName (i - 47))) := by
  constructor
  · intro hn
    have heq : applyColumnMapping n = COLUMN_NAMES.take n := by
      unfold applyColumnMapping
      rw [column_names_length, if_neg (by omega), if_pos hn]
    rw [heq]
    refine ⟨?_, ?_, ?_⟩
    · rw [List.length_take, column_names_length]
      omega
    · intro i hi
      have hlt : i < COLUMN_NAMES.length := by
        rw [column_names_length]; omega
      rw [List.getD_eq_getElem _ _ (by rw [List.length_take]; rw [column_names_length]; omega),
        List.getD_eq_getElem _ _ hlt]
      exact List.getElem_take _
    · intro s hs
      exact column_names_no_extra s (List.take_subset n COLUMN_NAMES hs)
  · intro hn
    have heq : applyColumnMapping n =
        COLUMN_NAMES ++ (List.range (n - COLUMN_NAMES.length)).map extraColName := by
      unfold applyColumnMapping
      rw [column_names_length, if_neg (by omega), if_neg (by omega)]
    rw [heq]
    refine ⟨?_, ?_, ?_⟩
    · rw [List.length_append, List.length_map, List.length_range, column_names_length]
      omega
    · intro i hi
      exact List.getD_append _ _ _ _ (by rw [column_names_length]; omega)
    · intro i h47 hin
      rw [List.getD_append_right _ _ _ _ (by rw [column_names_length]; omega)]
      rw [column_names_length]
      rw [List.getD_eq_getElem _ _
        (by simp only [List.length_map, List.length_range, column_names_length]; omega)]
      simp [column_names_length]

theorem schema_truncation_witness :
    ((applyColumnMapping 44).length = 44 ∧
      (applyColumnMapping 44).getD 43 "" = COLUMN_NAMES.getD 43 "") ∧
    ((applyColumnMapping 50).length = 50 ∧
      (applyColumnMapping 50).getD 48 "" = extraColName 1) :=
  ⟨⟨((schema_truncation 44).1 (by decide)).1,
    ((schema_truncation 44).1 (by decide)).2.1 43 (by decide)⟩,
   ⟨((schema_truncation 50).2 (by decide)).1,
    ((schema_truncation 50).2 (by decide)).2.2 48 (by decide) (by decide)⟩⟩

/-! ## C6 — unit-conversion columns are never added (code bug)

`load_channel_data` guards the micro→standard conversions with lowercase
column names (`'voltage_uv'`, `'current_ua'`, `'chg_capacity_uah'`,
`'dchg_capacity_uah'`), but `apply_column_mapping` assigns the mixed-case
names `'Voltage_uV'`, `'Current_uA'`, `'Chg_Capacity_uAh'`,
`'Dchg_Capacity_uAh'` (and `'Extra_Col_N'`), so the guards can never fire:
no derived column is ever added, contradicting the conversion block's own
stated purpose and the spec. -/

/-- Claim C6: at the full 47-column schema the micro-scale raw columns are present,
yet the loader's post-processing adds none of the derived human-scale
columns — the column list is unchanged. -/
theorem unit_conversion_never_fires :
    "Voltage_uV" ∈ loadChannelColumns 47 ∧
    "Current_uA" ∈ loadChannelColumns 47 ∧
    "Chg_Capacity_uAh" ∈ loadChannelColumns 47 ∧
    "Dchg_Capacity_uAh" ∈ loadChannelColumns 47 ∧
    "voltage_v" ∉ loadChannelColumns 47 ∧
    "current_ma" ∉ loadChannelColumns 47 ∧
    "chg_capacity_mah" ∉ loadChannelColumns 47 ∧
    "dchg_capacity_mah" ∉ loadChannelColumns 47 ∧
    loadChannelColumns 47 = COLUMN_NAMES := by
  decide

/-! ## C7 — merge completeness -/

/-- Claim C7: merging a non-empty held channel collection succeeds, the merged
row count is the sum of the per-channel row counts, and every merged row is
stamped with the identifier of a held channel that contains it. -/
theorem merge_completeness {α : Type} (cd : List (String × List α))
    (h : cd ≠ []) :
    ∃ m, mergeChannelData cd = Except.ok m ∧
      m.length = (cd.map (fun p => p.2.length)).sum ∧
      ∀ pr ∈ m, ∃ t, (pr.2, t) ∈ cd ∧ pr.1 ∈ t := by
  have hne : cd.isEmpty = false := by
    simp [List.isEmpty_iff, h]
  refine ⟨(cd.map (fun p => p.2.map (fun r => (r, p.1)))).flatten, ?_, ?_, ?_⟩
  · unfold mergeChannelData
    rw [hne]
    rfl
  · rw [List.length_flatten, List.map_map]
    have hfun : (List.length ∘ fun p : String × List α =>
        List.map (fun r => (r, p.1)) p.2) = fun p => p.2.length := by
      funext p
      simp
    rw [hfun]
  · intro pr hpr
    rw [List.mem_flatten] at hpr
    obtain ⟨l, hl, hprl⟩ := hpr
    rw [List.mem_map] at hl
    obtain ⟨p, hp, hlp⟩ := hl
    subst hlp
    rw [List.mem_map] at hprl
    obtain ⟨r, hr, hpr2⟩ := hprl
    subst hpr2
    exact ⟨p.2, hp, hr⟩

/-- Held channel tables used to witness the merge claims. -/
def cdW : List (String × List ℕ) := [("Ch86", [10, 20]), ("Ch93", [30])]

theorem merge_completeness_witness :
    ∃ m, mergeChannelData cdW = Except.ok m ∧
      m.length = (cdW.map (fun p => p.2.length)).sum ∧
      ∀ pr ∈ m, ∃ t, (pr.2, t) ∈ cdW ∧ pr.1 ∈ t :=
  merge_completeness cdW (by decide)

/-! ## C8 — unloaded-state error on merge -/

/-- Claim C8: requesting a merge with no channel data loaded fails with the
unloaded-state error and produces no merged table or state change (the
model returns no successor state on error); with at least one channel held,
the merge succeeds and only caches the merged table, leaving the held
channel collection unchanged. -/
theorem merge_unloaded_state {α : Type} (s : ProcState α) :
    (s.channelData = [] →
      mergeChannels s =
        Except.error "No channel data loaded. Call load_data() first.") ∧
    (s.channelData ≠ [] →
      ∃ m, mergeChannels s =
        Except.ok ({ channelData := s.channelData, mergedData := some m }, m)) := by
  constructor
  · intro hempty
    unfold mergeChannels
    rw [if_pos (by simp [List.isEmpty_iff, hempty])]
  · intro hne
    have hbool : s.channelData.isEmpty = false := by
      simp [List.isEmpty_iff, hne]
    refine ⟨(s.channelData.map (fun p => p.2.map (fun r => (r, p.1)))).flatten, ?_⟩
    unfold mergeChannels mergeChannelData
    rw [hbool]
    rfl

theorem merge_unloaded_state_witness :
    (mergeChannels ({ channelData := [], mergedData := Option.none } : ProcState ℕ) =
      Except.error "No channel data loaded. Call load_data() first.") ∧
    ∃ m, mergeChannels ({ channelData := cdW, mergedData := Option.none } : ProcState ℕ) =
      Except.ok ({ channelData := cdW, mergedData := some m }, m) :=
  ⟨(merge_unloaded_state _).1 rfl,
   (merge_unloaded_state { channelData := cdW, mergedData := Option.none }).2 (by decide)⟩

/-! ## C9 — rated-capacity default (code bug)

`parse_battery_info_from_path` always inserts the key `'capacity_mah'`
(value `None` when the name carries no capacity token), and `__init__`
always stores the resulting non-empty dict, so
`self.battery_info.get('capacity_mah', 1730)` in
`export_toyo_separate_files` returns the stored `None` rather than the
default 1730: the labeler is constructed with `rated_capacity = None`. -/

/-- Claim C9: on a descriptor without a capacity token the export path hands the
Label Inference Engine `None`, not 1730. -/
theorem rated_capacity_default_divergence :
    exportRatedCapacity (parseBatteryInfo "LGES_G3_MP1_상온수명") = PyVal.none ∧
    exportRatedCapacity (parseBatteryInfo "LGES_G3_MP1_상온수명") ≠ PyVal.int 1730 ∧
    parseBatteryInfo "LGES_G3_MP1_상온수명" ≠ [] := by
  decide

end DataTool
